import Mathlib

/-!
Verification of the recurrence scheduling engine and the occurrence
materializer of the osTicket-Task-Creator repository
(the cron script `scripts/run-template-job.js` and its full variant).

Date embedding: the script works exclusively with JavaScript `Date` values
normalized to UTC midnight (`toDateOnly`), so a date is embedded as an `Int`,
the number of days since the Unix epoch (1970-01-01).  `addDays` is integer
addition, and `getTime()` comparison is integer comparison (all values are
exact multiples of 86 400 000 ms, hence millisecond arithmetic in the source
is day arithmetic here).

`Date.UTC(y, m, d)` (0-based month, arbitrary integer arguments, proleptic
Gregorian calendar with JavaScript's out-of-range normalization of month and
day) is embedded through a linear month index N = 12*y + m: `fom N` is the
day number of the first day of linear month N, and
`Date.UTC(y, m, d) = fom (12*y + m) + (d - 1)`.  The accessors
`getUTCFullYear`, `getUTCMonth` and `getUTCDate` are recovered from `midx z`,
the unique N with `fom N ≤ z < fom (N + 1)`.
-/

/-- Cumulative day count before March-based month `mm` of a March-based year
(0 = March, 1 = April, ..., 11 = February).  The leap day sits at the very
end of the March-based year, so this table is leap-independent. -/
def mcumN : Nat → Nat
  | 0 => 0
  | 1 => 31
  | 2 => 61
  | 3 => 92
  | 4 => 122
  | 5 => 153
  | 6 => 184
  | 7 => 214
  | 8 => 245
  | 9 => 275
  | 10 => 306
  | _ => 337

/-- Days from 0000-03-01 to the start of March-based year `y`, for
`y ≤ 400` (one Gregorian era). -/
def ysN (y : Nat) : Nat := 365 * y + y / 4 - y / 100 + y / 400

/-- Largest index `i ≤ k` with `f i ≤ x` (0 if there is none): bounded
backwards search used to invert the cumulative tables. -/
def goLast (f : Nat → Nat) (x : Nat) : Nat → Nat
  | 0 => 0
  | k + 1 => if f (k + 1) ≤ x then k + 1 else goLast f x k

/-- Day number (days since 1970-01-01) of the first day of linear civil
month `N` (where `N = 12 * year + month`, month 0-based), proleptic
Gregorian.  This is the forward direction of JavaScript's `Date.UTC`
normalization. -/
def fom (N : Int) : Int :=
  let M := N - 2
  let yy := M / 12
  let mm := (M % 12).toNat
  365 * yy + yy / 4 - yy / 100 + yy / 400 + (mcumN mm : Int) - 719468

/-- Linear civil month index of the month containing day number `z`:
the unique `N` with `fom N ≤ z < fom (N + 1)`. -/
def midx (z : Int) : Int :=
  let zz := z + 719468
  let era := zz / 146097
  let doe := (zz % 146097).toNat
  let yoe := goLast ysN doe 399
  let doy := doe - ysN yoe
  let mp := goLast mcumN doy 11
  12 * (400 * era + (yoe : Int)) + (mp : Int) + 2

/-- JavaScript `date.getUTCFullYear()` for a date-only value. -/
def getUTCFullYear (z : Int) : Int := midx z / 12

/-- JavaScript `date.getUTCMonth()` (0-based) for a date-only value. -/
def getUTCMonth (z : Int) : Int := midx z % 12

/-- JavaScript `date.getUTCDate()` (1-based day of month) for a date-only
value. -/
def getUTCDate (z : Int) : Int := z - fom (midx z) + 1

/-- JavaScript `Date.UTC(y, m, d)` at day granularity: month and day may be
arbitrary integers and are normalized by date arithmetic. -/
def dateUTC (y m d : Int) : Int := fom (12 * y + m) + (d - 1)

theorem goLast_le (f : Nat → Nat) (x k : Nat) : goLast f x k ≤ k := by
  induction k with
  | zero => simp [goLast]
  | succ k ih =>
    unfold goLast
    split
    · exact Nat.le_refl _
    · exact Nat.le_succ_of_le ih

theorem goLast_spec (f : Nat → Nat) (x k : Nat) (h0 : f 0 ≤ x) :
    f (goLast f x k) ≤ x ∧ (x < f (goLast f x k + 1) ∨ goLast f x k = k) := by
  induction k with
  | zero => simpa [goLast] using h0
  | succ k ih =>
    unfold goLast
    split
    · next h => exact ⟨h, Or.inr rfl⟩
    · next h =>
      refine ⟨ih.1, ?_⟩
      rcases ih.2 with h' | h'
      · exact Or.inl h'
      · exact Or.inl (by rw [h']; omega)

theorem ysN_zero : ysN 0 = 0 := rfl

theorem ysN_cast (y : Nat) :
    (ysN y : Int) = 365 * (y : Int) + (y : Int) / 4 - (y : Int) / 100 + (y : Int) / 400 := by
  unfold ysN
  omega

/-- The Gregorian correction terms over one 400-year era cancel exactly:
the bridge between the `Int`-valued year computation in `fom` and the
`Nat`-valued within-era table `ysN`. -/
theorem era_bridge (era : Int) (y : Nat) :
    365 * (400 * era + (y : Int)) + (400 * era + (y : Int)) / 4
      - (400 * era + (y : Int)) / 100 + (400 * era + (y : Int)) / 400
    = 146097 * era + (ysN y : Int) := by
  have := ysN_cast y
  omega

theorem fom_midx_core (z era : Int) (doe yoe doy mp : Nat)
    (hzz : z + 719468 = 146097 * era + (doe : Int))
    (hdoelt : doe < 146097)
    (hy1 : ysN yoe ≤ doe) (hyub : doe < ysN (yoe + 1))
    (hdoy : doy = doe - ysN yoe)
    (hm1 : mcumN mp ≤ doy) (hm2 : doy < mcumN (mp + 1) ∨ mp = 11) (hmple : mp ≤ 11) :
    fom (12 * (400 * era + (yoe : Int)) + (mp : Int) + 2) ≤ z ∧
      z < fom (12 * (400 * era + (yoe : Int)) + (mp : Int) + 2 + 1) := by
  constructor
  · -- lower bound
    rw [fom]
    have harg : 12 * (400 * era + (yoe : Int)) + (mp : Int) + 2 - 2
        = 12 * (400 * era + (yoe : Int)) + (mp : Int) := by ring
    rw [harg]
    have hdiv : (12 * (400 * era + (yoe : Int)) + (mp : Int)) / 12 = 400 * era + (yoe : Int) := by
      omega
    have hmod : ((12 * (400 * era + (yoe : Int)) + (mp : Int)) % 12).toNat = mp := by
      omega
    rw [hdiv, hmod]
    have hb := era_bridge era yoe
    omega
  · -- upper bound
    rw [fom]
    by_cases hcase : mp = 11
    · -- February: the next month rolls into the next March-based year
      subst hcase
      have harg : 12 * (400 * era + (yoe : Int)) + ((11 : Nat) : Int) + 2 + 1 - 2
          = 12 * (400 * era + ((yoe : Int) + 1)) := by push_cast; ring
      rw [harg]
      have hdiv : (12 * (400 * era + ((yoe : Int) + 1))) / 12 = 400 * era + ((yoe : Int) + 1) := by
        omega
      have hmod : ((12 * (400 * era + ((yoe : Int) + 1))) % 12).toNat = 0 := by
        omega
      rw [hdiv, hmod]
      have hb : 365 * (400 * era + ((yoe : Int) + 1)) + (400 * era + ((yoe : Int) + 1)) / 4
          - (400 * era + ((yoe : Int) + 1)) / 100 + (400 * era + ((yoe : Int) + 1)) / 400
          = 146097 * era + (ysN (yoe + 1) : Int) := by
        have := era_bridge era (yoe + 1)
        push_cast at this ⊢
        omega
      have hmz : mcumN 0 = 0 := rfl
      rw [hmz]
      have hm11 : mcumN 11 = 337 := rfl
      rw [hm11] at hm1
      have hy366 : ysN (yoe + 1) ≤ ysN yoe + 366 := by
        unfold ysN
        omega
      omega
    · -- same March-based year, next month
      have hmub : doy < mcumN (mp + 1) := by
        rcases hm2 with h | h
        · exact h
        · omega
      have harg : 12 * (400 * era + (yoe : Int)) + (mp : Int) + 2 + 1 - 2
          = 12 * (400 * era + (yoe : Int)) + ((mp : Int) + 1) := by ring
      rw [harg]
      have hdiv : (12 * (400 * era + (yoe : Int)) + ((mp : Int) + 1)) / 12
          = 400 * era + (yoe : Int) := by omega
      have hmod : ((12 * (400 * era + (yoe : Int)) + ((mp : Int) + 1)) % 12).toNat = mp + 1 := by
        omega
      rw [hdiv, hmod]
      have hb := era_bridge era yoe
      omega

/-- Characterization of `midx`: day `z` lies inside linear month `midx z`. -/
theorem fom_midx (z : Int) : fom (midx z) ≤ z ∧ z < fom (midx z + 1) := by
  have h0 : (0 : Int) ≤ (z + 719468) % 146097 := Int.emod_nonneg _ (by norm_num)
  have h1 : (z + 719468) % 146097 < 146097 := Int.emod_lt_of_pos _ (by norm_num)
  have hzz : z + 719468
      = 146097 * ((z + 719468) / 146097) + (((z + 719468) % 146097).toNat : Int) := by
    omega
  have hdoelt : ((z + 719468) % 146097).toNat < 146097 := by omega
  obtain ⟨hy1, hy2⟩ := goLast_spec ysN ((z + 719468) % 146097).toNat 399 (by simp [ysN])
  have hyub : ((z + 719468) % 146097).toNat
      < ysN (goLast ysN ((z + 719468) % 146097).toNat 399 + 1) := by
    rcases hy2 with h | h
    · exact h
    · rw [h]
      show _ < ysN 400
      have h400 : ysN 400 = 146097 := by norm_num [ysN]
      omega
  obtain ⟨hm1, hm2⟩ := goLast_spec mcumN
    (((z + 719468) % 146097).toNat - ysN (goLast ysN ((z + 719468) % 146097).toNat 399)) 11
    (by simp [mcumN])
  have hcore := fom_midx_core z ((z + 719468) / 146097) ((z + 719468) % 146097).toNat
    (goLast ysN ((z + 719468) % 146097).toNat 399)
    (((z + 719468) % 146097).toNat - ysN (goLast ysN ((z + 719468) % 146097).toNat 399))
    (goLast mcumN
      (((z + 719468) % 146097).toNat - ysN (goLast ysN ((z + 719468) % 146097).toNat 399)) 11)
    hzz hdoelt hy1 hyub rfl hm1 hm2 (goLast_le _ _ _)
  have hmidx : midx z = 12 * (400 * ((z + 719468) / 146097)
        + ((goLast ysN ((z + 719468) % 146097).toNat 399 : Nat) : Int))
      + ((goLast mcumN
          (((z + 719468) % 146097).toNat - ysN (goLast ysN ((z + 719468) % 146097).toNat 399))
          11 : Nat) : Int) + 2 := rfl
  rw [hmidx]
  exact hcore

/-- Helper for `fom_succ_ge`: the non-rollover months. -/
theorem fom_succ_ge_case (N : Int) (c : Int) (v v' : Int)
    (h : (N - 2) % 12 = c) (h' : (N - 2 + 1) % 12 = c + 1)
    (hv : (mcumN (c.toNat) : Int) = v) (hv' : (mcumN ((c + 1).toNat) : Int) = v')
    (hvd : v + 28 ≤ v') : fom N + 28 ≤ fom (N + 1) := by
  have harg : N + 1 - 2 = N - 2 + 1 := by ring
  rw [fom, fom, harg]
  have hq : (N - 2 + 1) / 12 = (N - 2) / 12 := by omega
  rw [h, h', hq, hv, hv']
  omega

/-- Every civil month is at least 28 days long. -/
theorem fom_succ_ge (N : Int) : fom N + 28 ≤ fom (N + 1) := by
  have h0 : 0 ≤ (N - 2) % 12 := Int.emod_nonneg _ (by norm_num)
  have h1 : (N - 2) % 12 < 12 := Int.emod_lt_of_pos _ (by norm_num)
  have hsplit : (N - 2) % 12 = 0 ∨ (N - 2) % 12 = 1 ∨ (N - 2) % 12 = 2 ∨ (N - 2) % 12 = 3 ∨
      (N - 2) % 12 = 4 ∨ (N - 2) % 12 = 5 ∨ (N - 2) % 12 = 6 ∨ (N - 2) % 12 = 7 ∨
      (N - 2) % 12 = 8 ∨ (N - 2) % 12 = 9 ∨ (N - 2) % 12 = 10 ∨ (N - 2) % 12 = 11 := by
    omega
  rcases hsplit with h | h | h | h | h | h | h | h | h | h | h | h
  · exact fom_succ_ge_case N 0 0 31 h (by omega) rfl rfl (by norm_num)
  · exact fom_succ_ge_case N 1 31 61 h (by omega) rfl rfl (by norm_num)
  · exact fom_succ_ge_case N 2 61 92 h (by omega) rfl rfl (by norm_num)
  · exact fom_succ_ge_case N 3 92 122 h (by omega) rfl rfl (by norm_num)
  · exact fom_succ_ge_case N 4 122 153 h (by omega) rfl rfl (by norm_num)
  · exact fom_succ_ge_case N 5 153 184 h (by omega) rfl rfl (by norm_num)
  · exact fom_succ_ge_case N 6 184 214 h (by omega) rfl rfl (by norm_num)
  · exact fom_succ_ge_case N 7 214 245 h (by omega) rfl rfl (by norm_num)
  · exact fom_succ_ge_case N 8 245 275 h (by omega) rfl rfl (by norm_num)
  · exact fom_succ_ge_case N 9 275 306 h (by omega) rfl rfl (by norm_num)
  · exact fom_succ_ge_case N 10 306 337 h (by omega) rfl rfl (by norm_num)
  · -- February rolls over into the next March-based year
    have harg : N + 1 - 2 = N - 2 + 1 := by ring
    rw [fom, fom, harg]
    have h' : (N - 2 + 1) % 12 = 0 := by omega
    have hq : (N - 2 + 1) / 12 = (N - 2) / 12 + 1 := by omega
    rw [h, h', hq]
    have hm1 : (mcumN ((11 : Int).toNat) : Int) = 337 := rfl
    have hm2 : (mcumN ((0 : Int).toNat) : Int) = 0 := rfl
    rw [hm1, hm2]
    omega

theorem fom_mono {N N' : Int} (h : N ≤ N') : fom N ≤ fom N' := by
  refine Int.le_induction (P := fun x => fom N ≤ fom x) (le_refl _) ?_ N' h
  intro m _ ih
  have := fom_succ_ge m
  omega

theorem fom_lt {N N' : Int} (h : N < N') : fom N < fom N' := by
  have h1 := fom_succ_ge N
  have h2 := fom_mono (show N + 1 ≤ N' by omega)
  omega

/-- The function `midx` is a left inverse of `fom`. -/
theorem midx_fom (N : Int) : midx (fom N) = N := by
  obtain ⟨hle, hlt⟩ := fom_midx (fom N)
  by_cases h : midx (fom N) < N
  · have := fom_mono (show midx (fom N) + 1 ≤ N by omega)
    omega
  · by_cases h' : N < midx (fom N)
    · have := fom_lt h'
      omega
    · omega

theorem getUTCDate_pos (z : Int) : 1 ≤ getUTCDate z := by
  have := (fom_midx z).1
  unfold getUTCDate
  omega

theorem getUTCMonth_range (z : Int) : 0 ≤ getUTCMonth z ∧ getUTCMonth z < 12 := by
  unfold getUTCMonth
  constructor
  · exact Int.emod_nonneg _ (by norm_num)
  · exact Int.emod_lt_of_pos _ (by norm_num)

theorem year_month_midx (z : Int) : 12 * getUTCFullYear z + getUTCMonth z = midx z := by
  unfold getUTCFullYear getUTCMonth
  omega


/-!
Embedding of the scheduling engine of `scripts/run-template-job.js`.

Recurrence rules are stored as
`recurrence { type, <type>: params }` — the stored object carries exactly the
parameter group named by its type (built by `normalizeRecurrence` in
`server.js`) — so the rule is embedded as an inductive with one constructor
per type.  A missing or unrecognized `recurrence.type` is `unspecified`.
Numeric parameters read with `Number(x || dflt)` treat a stored `0` (and an
absent field) as falsy; `jsOr` models this.
-/

inductive Recurrence where
  | unspecified
  | daily (intervalDays : Int)
  | weekly (intervalWeeks : Int) (dayOfWeek : Int)
  | monthly (intervalMonths : Int) (dayOfMonth : Int)
  | quarterly
  | yearly (month : Int) (day : Int)
  | custom (startDate : Option Int) (intervalDays : Int)
  deriving DecidableEq, Repr

inductive Assignee where
  | unassigned
  | staff (id : Int)
  | team (id : Int)
  deriving DecidableEq, Repr

structure Template where
  firstDueDate : Int
  daysBeforeDueDateToCreate : Int
  recurrence : Recurrence
  title : String
  description : String
  departmentId : Int
  assignee : Assignee
  deriving DecidableEq, Repr

/-- Model of `Number(x || dflt)` for an integer-valued JavaScript expression:
`0` (or an absent field, stored here as `0`) is falsy and selects the
fallback. -/
def jsOr (x dflt : Int) : Int := if x = 0 then dflt else x

/-- Source `toDateOnly` re-normalizes a date to UTC midnight; on the date-only
day numbers of this embedding it is the identity. -/
def toDateOnly (d : Int) : Int := d

/-- Source `addDays(base, days)`: `setUTCDate(getUTCDate() + days)` normalizes at
day granularity, i.e. adds `days` days. -/
def addDays (base days : Int) : Int := base + days

/-- Source `nextDueDate(prevDue, recurrence)` of `run-template-job.js` (lines
43-83 of the full variant): `none` embeds the `null` returned for a missing
or unrecognized recurrence type. -/
def nextDueDate (prevDue : Int) (recurrence : Recurrence) : Option Int :=
  let base := toDateOnly prevDue
  match recurrence with
  | .daily intervalDays =>
      some (addDays base (max 1 (jsOr intervalDays 1)))
  | .weekly intervalWeeks _ =>
      some (addDays base (7 * max 1 (jsOr intervalWeeks 1)))
  | .monthly intervalMonths dayOfMonth =>
      some (dateUTC (getUTCFullYear base)
        (getUTCMonth base + max 1 (jsOr intervalMonths 1))
        (jsOr dayOfMonth (getUTCDate base)))
  | .quarterly =>
      let month := getUTCMonth base
      let nextQuarterStartMonth : Int :=
        if month < 3 then 3 else if month < 6 then 6 else if month < 9 then 9 else 12
      let year := getUTCFullYear base + (if nextQuarterStartMonth = 12 then 1 else 0)
      let normalizedMonth := if nextQuarterStartMonth = 12 then 0 else nextQuarterStartMonth
      some (dateUTC year normalizedMonth 1)
  | .yearly month day =>
      some (dateUTC (getUTCFullYear base + 1)
        (jsOr month (getUTCMonth base + 1) - 1)
        (jsOr day (getUTCDate base)))
  | .custom _ intervalDays =>
      some (addDays base (max 1 (jsOr intervalDays 1)))
  | .unspecified => none

/-- Source `initialDueDate(template)`: the `custom.startDate` override when present
and truthy, else `firstDueDate`. -/
def initialDueDate (t : Template) : Int :=
  match t.recurrence with
  | .custom (some s) _ => toDateOnly s
  | _ => toDateOnly t.firstDueDate

/-- The effective lead time `Math.max(0, Number(t.daysBeforeDueDateToCreate || 0))`. -/
def leadDays (t : Template) : Int := max 0 (jsOr t.daysBeforeDueDateToCreate 0)

/-- The `while (creation < today)` loop of `fastForwardDailyLike`, embedded
with explicit fuel.  The JavaScript loop terminates exactly when
`intervalDays ≥ 1` (which holds at every call site, where the interval has
been clamped with `Math.max(1, ...)`), and then the fuel supplied by
`fastForwardDailyLike` is sufficient, so the fuel-exhaustion branch is
never taken. -/
def ffLoop (today intervalDays : Int) : Nat → Int × Int → Int × Int
  | 0, s => s
  | fuel + 1, (due, creation) =>
    if creation < today then
      ffLoop today intervalDays fuel (addDays due intervalDays, addDays creation intervalDays)
    else (due, creation)

/-- Source `fastForwardDailyLike(due, today, daysBefore, intervalDays)`: one
arithmetic jump of whole interval periods, then single-stepping until the
creation date is no longer behind today.  The millisecond arithmetic of the
source divides exactly by `millisPerDay`, leaving floor division of day
counts. -/
def fastForwardDailyLike (due today daysBefore intervalDays : Int) : Int × Int :=
  let creation := addDays due (-daysBefore)
  let jumped :=
    if creation < today then
      let diffDays := (today - creation) / intervalDays
      if diffDays > 0 then
        (addDays due (diffDays * intervalDays), addDays creation (diffDays * intervalDays))
      else (due, creation)
    else (due, creation)
  ffLoop today intervalDays ((today - jumped.2).toNat + 1) jumped

/-- The `while (iterations < maxIterations)` loop of `getCreationForDate`,
with `fuel = maxIterations - iterations` and the absolute iteration counter
threaded through; the result carries the value of `iterations` at exit. -/
def gcLoop (recurrence : Recurrence) (daysBefore today : Int) :
    Nat → Int → Nat → Option (Int × Int) × Nat
  | 0, _, iterations => (none, iterations)
  | fuel + 1, due, iterations =>
    let creationDate := addDays due (-daysBefore)
    if creationDate = today then (some (due, creationDate), iterations)
    else if creationDate > today then (none, iterations)
    else
      match recurrence with
      | .daily k =>
          let interval := max 1 (jsOr k 1)
          let fast := fastForwardDailyLike due today daysBefore interval
          gcLoop recurrence daysBefore today fuel fast.1 (iterations + 1)
      | .custom _ k =>
          let interval := max 1 (jsOr k 1)
          let fast := fastForwardDailyLike due today daysBefore interval
          gcLoop recurrence daysBefore today fuel fast.1 (iterations + 1)
      | .weekly w _ =>
          let intervalDays := 7 * max 1 (jsOr w 1)
          let fast := fastForwardDailyLike due today daysBefore intervalDays
          gcLoop recurrence daysBefore today fuel fast.1 (iterations + 1)
      | _ =>
          match nextDueDate due recurrence with
          | none => (none, iterations)
          | some nextDue =>
              if nextDue = due then (none, iterations)
              else gcLoop recurrence daysBefore today fuel nextDue (iterations + 1)

/-- Source `getCreationForDate(template, today)` together with the final value of
its iteration counter (`maxIterations = 50000`). -/
def getCreationForDateFull (t : Template) (today : Int) : Option (Int × Int) × Nat :=
  gcLoop t.recurrence (leadDays t) today 50000 (initialDueDate t) 0

/-- Source `getCreationForDate(template, today)`: `some (dueDate, creationDate)`
for a match, `none` for `null`. -/
def getCreationForDate (t : Template) (today : Int) : Option (Int × Int) :=
  (getCreationForDateFull t today).1

/-- The value of the `iterations` counter when `getCreationForDate` exits. -/
def getCreationIterations (t : Template) (today : Int) : Nat :=
  (getCreationForDateFull t today).2

/-- The recurrence types that `getCreationForDate` advances with the
fast-forward shortcut (`daily`, `custom`, and `weekly` as a 7-times-interval
day rule). -/
def isFastForwardType : Recurrence → Bool
  | .daily _ => true
  | .custom _ _ => true
  | .weekly _ _ => true
  | _ => false

/-- The effective day interval of a fast-forward rule, after the
`Math.max(1, Number(x || 1))` clamping of the source. -/
def effInterval : Recurrence → Int
  | .daily k => max 1 (jsOr k 1)
  | .custom _ k => max 1 (jsOr k 1)
  | .weekly w _ => 7 * max 1 (jsOr w 1)
  | _ => 1

theorem effInterval_pos (r : Recurrence) : 1 ≤ effInterval r := by
  cases r <;> simp [effInterval] <;> omega

theorem nextDueDate_ff {r : Recurrence} (hff : isFastForwardType r = true) (d : Int) :
    nextDueDate d r = some (d + effInterval r) := by
  cases r <;> simp_all [isFastForwardType, nextDueDate, effInterval, addDays, toDateOnly]

/-- Closed form of the evaluation of a fixed-interval schedule: with anchor
due date `due`, lead `b` and interval `I`, today is a creation date exactly
when it is not before the anchor creation date and the gap is a multiple of
`I`. -/
def dailyLikeResult (due b today I : Int) : Option (Int × Int) :=
  if today < due - b then none
  else if (today - (due - b)) % I = 0 then some (due + (today - (due - b)), today)
  else none

theorem ffLoop_stop {today I : Int} {d c : Int} (h : ¬c < today) (fuel : Nat) :
    ffLoop today I (fuel + 1) (d, c) = (d, c) := by
  simp [ffLoop, h]

theorem ffLoop_step {today I : Int} {d c : Int} (h : c < today) (fuel : Nat) :
    ffLoop today I (fuel + 1) (d, c) = ffLoop today I fuel (d + I, c + I) := by
  simp [ffLoop, h, addDays]

/-- Result of `fastForwardDailyLike` when the gap divides evenly: the
creation date lands exactly on `today`. -/
theorem fastForward_exact {due today b I : Int} (hI : 1 ≤ I) (hc : due - b < today)
    (hr : (today - (due - b)) % I = 0) :
    fastForwardDailyLike due today b I = (due + (today - (due - b)), today) := by
  have hq := Int.ediv_add_emod (today - (due - b)) I
  rw [hr, mul_comm] at hq
  have hqpos : 0 < (today - (due - b)) / I := by
    by_contra h
    push_neg at h
    have h2 : (today - (due - b)) / I * I ≤ 0 * I :=
      mul_le_mul_of_nonneg_right h (by omega)
    rw [zero_mul] at h2
    omega
  unfold fastForwardDailyLike
  simp only [addDays]
  rw [show due + -b = due - b from by ring]
  rw [if_pos hc, if_pos hqpos]
  have hcr : due - b + (today - (due - b)) / I * I = today := by omega
  rw [hcr]
  simp only [sub_self, Int.toNat_zero, Nat.zero_add]
  rw [ffLoop_stop (by omega) 0]
  simp only [Prod.mk.injEq]
  exact ⟨by omega, trivial⟩

/-- Result of `fastForwardDailyLike` when the gap does not divide evenly:
the creation date overshoots `today` by `I - r`. -/
theorem fastForward_over {due today b I : Int} (hI : 1 ≤ I) (hc : due - b < today)
    (hr : (today - (due - b)) % I ≠ 0) :
    fastForwardDailyLike due today b I
      = (due + (today - (due - b)) + (I - (today - (due - b)) % I),
         today + (I - (today - (due - b)) % I)) := by
  have hq := Int.ediv_add_emod (today - (due - b)) I
  rw [mul_comm] at hq
  have hr0 : 0 ≤ (today - (due - b)) % I := Int.emod_nonneg _ (by omega)
  have hrI : (today - (due - b)) % I < I := Int.emod_lt_of_pos _ (by omega)
  have hqnn : 0 ≤ (today - (due - b)) / I := by
    by_contra h
    push_neg at h
    have h2 : (today - (due - b)) / I * I ≤ (-1) * I :=
      mul_le_mul_of_nonneg_right (by omega) (by omega)
    rw [neg_one_mul] at h2
    omega
  unfold fastForwardDailyLike
  simp only [addDays]
  rw [show due + -b = due - b from by ring]
  rw [if_pos hc]
  by_cases hqpos : (today - (due - b)) / I > 0
  · rw [if_pos hqpos]
    have hcreation : due - b + (today - (due - b)) / I * I
        = today - (today - (due - b)) % I := by omega
    rw [hcreation]
    have htn : (today - (today - (today - (due - b)) % I)).toNat
        = ((today - (due - b)) % I).toNat := by omega
    rw [htn]
    obtain ⟨k, hk⟩ : ∃ k, ((today - (due - b)) % I).toNat = k + 1 :=
      ⟨((today - (due - b)) % I).toNat - 1, by omega⟩
    rw [hk]
    have hst1 : today - (today - (due - b)) % I < today := by omega
    rw [ffLoop_step hst1]
    obtain ⟨k2, hk2⟩ : ∃ k2, k + 1 = k2 + 1 := ⟨k, rfl⟩
    rw [hk2]
    have hst2 : ¬(today - (today - (due - b)) % I + I < today) := by omega
    rw [ffLoop_stop hst2]
    simp only [Prod.mk.injEq]
    exact ⟨by omega, by omega⟩
  · rw [if_neg hqpos]
    have hq0 : (today - (due - b)) / I = 0 := by omega
    have hc0 : (today - (due - b)) / I * I = 0 := by rw [hq0]; ring
    have hrval : (today - (due - b)) % I = today - (due - b) := by omega
    obtain ⟨k, hk⟩ : ∃ k, (today - (due - b)).toNat = k + 1 :=
      ⟨(today - (due - b)).toNat - 1, by omega⟩
    rw [hk]
    rw [ffLoop_step hc]
    obtain ⟨k2, hk2⟩ : ∃ k2, k + 1 = k2 + 1 := ⟨k, rfl⟩
    rw [hk2]
    have hst2 : ¬(due - b + I < today) := by omega
    rw [ffLoop_stop hst2]
    simp only [Prod.mk.injEq]
    exact ⟨by omega, by omega⟩

/-- Reference evaluator for the fast-forward equivalence property: the same
match/stop conditions as `getCreationForDate`, but the schedule is advanced
one `nextDueDate` interval at a time from the anchor (the naive
single-stepping evaluator the specification compares against). -/
def naiveLoop (recurrence : Recurrence) (daysBefore today : Int) :
    Nat → Int → Option (Int × Int)
  | 0, _ => none
  | fuel + 1, due =>
    let creationDate := addDays due (-daysBefore)
    if creationDate = today then some (due, creationDate)
    else if creationDate > today then none
    else
      match nextDueDate due recurrence with
      | none => none
      | some nextDue => naiveLoop recurrence daysBefore today fuel nextDue

/-- The naive single-stepping evaluator over a whole template, with the same
iteration budget as `getCreationForDate`. -/
def naiveSingleStepEval (t : Template) (today : Int) : Option (Int × Int) :=
  naiveLoop t.recurrence (leadDays t) today 50000 (initialDueDate t)

theorem dailyLikeResult_step {due b today I : Int} (hI : 1 ≤ I) (hc : due - b < today) :
    dailyLikeResult (due + I) b today I = dailyLikeResult due b today I := by
  have hr0 : 0 ≤ (today - (due - b)) % I := Int.emod_nonneg _ (by omega)
  have hrI : (today - (due - b)) % I < I := Int.emod_lt_of_pos _ (by omega)
  unfold dailyLikeResult
  rw [show due + I - b = due - b + I from by ring]
  rw [show today - (due - b + I) = today - (due - b) - I from by ring]
  rw [Int.emod_sub_cancel]
  by_cases h1 : today < due - b + I
  · rw [if_pos h1, if_neg (show ¬today < due - b from by omega)]
    have hmv : (today - (due - b)) % I = today - (due - b) :=
      Int.emod_eq_of_lt (by omega) (by omega)
    rw [if_neg (show ¬(today - (due - b)) % I = 0 from by omega)]
  · rw [if_neg h1, if_neg (show ¬today < due - b from by omega)]
    by_cases h2 : (today - (due - b)) % I = 0
    · rw [if_pos h2, if_pos h2]
      simp only [Option.some.injEq, Prod.mk.injEq]
      exact ⟨by ring, trivial⟩
    · rw [if_neg h2, if_neg h2]

theorem naiveLoop_eq_dailyLike {r : Recurrence} (hff : isFastForwardType r = true)
    (b today : Int) :
    ∀ fuel due, (today - (due - b)).toNat < fuel →
      naiveLoop r b today fuel due = dailyLikeResult due b today (effInterval r) := by
  intro fuel
  induction fuel with
  | zero =>
    intro due h
    omega
  | succ f ih =>
    intro due h
    have hI := effInterval_pos r
    unfold naiveLoop
    simp only [addDays]
    by_cases h1 : due + -b = today
    · rw [if_pos h1]
      unfold dailyLikeResult
      have hz : today - (due - b) = 0 := by omega
      rw [if_neg (by omega), hz]
      rw [if_pos (Int.zero_emod _)]
      simp only [Option.some.injEq, Prod.mk.injEq]
      exact ⟨by omega, by omega⟩
    · rw [if_neg h1]
      by_cases h2 : due + -b > today
      · rw [if_pos h2]
        unfold dailyLikeResult
        rw [if_pos (by omega)]
      · rw [if_neg h2]
        rw [nextDueDate_ff hff]
        show naiveLoop r b today f (due + effInterval r) = _
        rw [ih (due + effInterval r) (by omega)]
        exact dailyLikeResult_step hI (by omega)

/-- One pass of the `getCreationForDate` loop for a fast-forward rule. -/
theorem gcLoop_ff_unfold {r : Recurrence} (hff : isFastForwardType r = true)
    (b today : Int) (fuel : Nat) (due : Int) (iters : Nat) :
    gcLoop r b today (fuel + 1) due iters =
      if addDays due (-b) = today then (some (due, addDays due (-b)), iters)
      else if addDays due (-b) > today then (none, iters)
      else gcLoop r b today fuel
        (fastForwardDailyLike due today b (effInterval r)).1 (iters + 1) := by
  cases r with
  | daily k => rfl
  | weekly w d => rfl
  | custom s k => rfl
  | unspecified => simp [isFastForwardType] at hff
  | monthly a c => simp [isFastForwardType] at hff
  | quarterly => simp [isFastForwardType] at hff
  | yearly a c => simp [isFastForwardType] at hff

theorem gcLoop_ff_result {r : Recurrence} (hff : isFastForwardType r = true)
    (b today due : Int) (fuel iters : Nat) :
    (gcLoop r b today (fuel + 2) due iters).1 = dailyLikeResult due b today (effInterval r) := by
  have hI := effInterval_pos r
  rw [show fuel + 2 = (fuel + 1) + 1 from rfl]
  rw [gcLoop_ff_unfold hff]
  simp only [addDays]
  by_cases h1 : due + -b = today
  · rw [if_pos h1]
    unfold dailyLikeResult
    have hz : today - (due - b) = 0 := by omega
    rw [if_neg (by omega), hz, if_pos (Int.zero_emod _)]
    show some (due, due + -b) = some (due + 0, today)
    simp only [Option.some.injEq, Prod.mk.injEq]
    exact ⟨by omega, by omega⟩
  · rw [if_neg h1]
    by_cases h2 : due + -b > today
    · rw [if_pos h2]
      show (none : Option (Int × Int)) = _
      unfold dailyLikeResult
      rw [if_pos (by omega)]
    · rw [if_neg h2]
      have hc : due - b < today := by omega
      by_cases hr : (today - (due - b)) % effInterval r = 0
      · rw [fastForward_exact hI hc hr]
        show (gcLoop r b today (fuel + 1) (due + (today - (due - b))) (iters + 1)).1 = _
        rw [gcLoop_ff_unfold hff]
        simp only [addDays]
        rw [if_pos (show due + (today - (due - b)) + -b = today from by ring)]
        unfold dailyLikeResult
        rw [if_neg (by omega), if_pos hr]
        show some (due + (today - (due - b)), due + (today - (due - b)) + -b)
          = some (due + (today - (due - b)), today)
        simp only [Option.some.injEq, Prod.mk.injEq]
        exact ⟨trivial, by ring⟩
      · rw [fastForward_over hI hc hr]
        show (gcLoop r b today (fuel + 1)
          (due + (today - (due - b)) + (effInterval r - (today - (due - b)) % effInterval r))
          (iters + 1)).1 = _
        rw [gcLoop_ff_unfold hff]
        simp only [addDays]
        have hrpos : 0 < (today - (due - b)) % effInterval r := by
          have := Int.emod_nonneg (today - (due - b)) (show effInterval r ≠ 0 by omega)
          omega
        have hrlt : (today - (due - b)) % effInterval r < effInterval r :=
          Int.emod_lt_of_pos _ (by omega)
        rw [if_neg (by omega), if_pos (by omega)]
        show (none : Option (Int × Int)) = _
        unfold dailyLikeResult
        rw [if_neg (by omega), if_neg hr]

/-- C1: for templates whose recurrence type is daily, custom, or weekly, the
schedule evaluator `getCreationForDate` (which advances with the
`fastForwardDailyLike` shortcut) returns the same result — `none`, or the
identical `(dueDate, creationDate)` pair — as the naive evaluator that
single-steps `nextDueDate` from the template's anchor date one interval at
a time, for any `today` up to 49 999 days (over 135 years) past the anchor
creation date, which covers any multi-year horizon. -/
theorem C1_fastForward_equivalence (t : Template) (today : Int)
    (hff : isFastForwardType t.recurrence = true)
    (hhorizon : today - (initialDueDate t - leadDays t) ≤ 49999) :
    getCreationForDate t today = naiveSingleStepEval t today := by
  unfold getCreationForDate getCreationForDateFull naiveSingleStepEval
  have h1 : (gcLoop t.recurrence (leadDays t) today 50000 (initialDueDate t) 0).1
      = dailyLikeResult (initialDueDate t) (leadDays t) today (effInterval t.recurrence) :=
    gcLoop_ff_result hff (leadDays t) today (initialDueDate t) 49998 0
  rw [h1]
  rw [naiveLoop_eq_dailyLike hff (leadDays t) today 50000 (initialDueDate t) (by omega)]

/-- Applying `C1_fastForward_equivalence` at a concrete input: the daily
template of spec scenario A. -/
theorem C1_fastForward_equivalence_witness :
    isFastForwardType (Template.mk (dateUTC 2024 0 10) 2 (.daily 3) "" "" 0 .unassigned).recurrence
      = true ∧
    dateUTC 2024 0 14
      - (initialDueDate (Template.mk (dateUTC 2024 0 10) 2 (.daily 3) "" "" 0 .unassigned)
        - leadDays (Template.mk (dateUTC 2024 0 10) 2 (.daily 3) "" "" 0 .unassigned)) ≤ 49999 ∧
    getCreationForDate (Template.mk (dateUTC 2024 0 10) 2 (.daily 3) "" "" 0 .unassigned)
        (dateUTC 2024 0 14)
      = naiveSingleStepEval (Template.mk (dateUTC 2024 0 10) 2 (.daily 3) "" "" 0 .unassigned)
        (dateUTC 2024 0 14) :=
  ⟨rfl, by decide,
    C1_fastForward_equivalence _ _ rfl (by decide)⟩

/-- One pass of the `getCreationForDate` loop for a rule that is advanced
by calling `nextDueDate` once per iteration (monthly, quarterly, yearly, or
unrecognized). -/
theorem gcLoop_step_unfold {r : Recurrence} (hnff : isFastForwardType r = false)
    (b today : Int) (fuel : Nat) (due : Int) (iters : Nat) :
    gcLoop r b today (fuel + 1) due iters =
      if addDays due (-b) = today then (some (due, addDays due (-b)), iters)
      else if addDays due (-b) > today then (none, iters)
      else
        match nextDueDate due r with
        | none => (none, iters)
        | some nextDue =>
            if nextDue = due then (none, iters)
            else gcLoop r b today fuel nextDue (iters + 1) := by
  cases r with
  | unspecified => rfl
  | monthly a c => rfl
  | quarterly => rfl
  | yearly a c => rfl
  | daily k => simp [isFastForwardType] at hnff
  | custom s k => simp [isFastForwardType] at hnff
  | weekly w d => simp [isFastForwardType] at hnff

theorem gcLoop_some_creation (r : Recurrence) (b today : Int) :
    ∀ fuel due iters occ, (gcLoop r b today fuel due iters).1 = some occ →
      occ.2 = today ∧ occ.1 - b = today := by
  intro fuel
  induction fuel with
  | zero =>
    intro due iters occ h
    simp [gcLoop] at h
  | succ f ih =>
    intro due iters occ h
    by_cases hff : isFastForwardType r = true
    · rw [gcLoop_ff_unfold hff] at h
      by_cases h1 : addDays due (-b) = today
      · rw [if_pos h1] at h
        have hocc : (due, addDays due (-b)) = occ := by simpa using h
        subst hocc
        simp only [addDays] at h1 ⊢
        exact ⟨h1, by omega⟩
      · rw [if_neg h1] at h
        by_cases h2 : addDays due (-b) > today
        · rw [if_pos h2] at h
          simp at h
        · rw [if_neg h2] at h
          exact ih _ _ _ h
    · have hnff : isFastForwardType r = false := by simpa using hff
      rw [gcLoop_step_unfold hnff] at h
      by_cases h1 : addDays due (-b) = today
      · rw [if_pos h1] at h
        have hocc : (due, addDays due (-b)) = occ := by simpa using h
        subst hocc
        simp only [addDays] at h1 ⊢
        exact ⟨h1, by omega⟩
      · rw [if_neg h1] at h
        by_cases h2 : addDays due (-b) > today
        · rw [if_pos h2] at h
          simp at h
        · rw [if_neg h2] at h
          rcases hnd : nextDueDate due r with _ | nd
          · rw [hnd] at h
            simp at h
          · rw [hnd] at h
            have h3 : (if nd = due then ((none : Option (Int × Int)), iters)
                else gcLoop r b today f nd (iters + 1)).1 = some occ := h
            by_cases h4 : nd = due
            · rw [if_pos h4] at h3
              simp at h3
            · rw [if_neg h4] at h3
              exact ih _ _ _ h3

/-- C2: `getCreationForDate` returns at most one occurrence per invocation
(its result is an `Option`: `none` or a single pair), and whenever it
returns one, that occurrence's creation date is exactly `today`, and its
due date minus the effective lead time equals `today`; occurrences whose
creation date fell before `today` are never returned. -/
theorem C2_creation_equals_today (t : Template) (today : Int) (occ : Int × Int)
    (h : getCreationForDate t today = some occ) :
    occ.2 = today ∧ occ.1 - leadDays t = today :=
  gcLoop_some_creation t.recurrence (leadDays t) today 50000 (initialDueDate t) 0 occ h

/-- Applying `C2_creation_equals_today` at a concrete input (spec scenario
A: match `dueDate = 2024-01-16`, `creationDate = 2024-01-14`). -/
theorem C2_creation_equals_today_witness :
    ((dateUTC 2024 0 16, dateUTC 2024 0 14) : Int × Int).2 = dateUTC 2024 0 14 ∧
      ((dateUTC 2024 0 16, dateUTC 2024 0 14) : Int × Int).1
        - leadDays (Template.mk (dateUTC 2024 0 10) 2 (.daily 3) "" "" 0 .unassigned)
        = dateUTC 2024 0 14 :=
  C2_creation_equals_today (Template.mk (dateUTC 2024 0 10) 2 (.daily 3) "" "" 0 .unassigned)
    (dateUTC 2024 0 14) (dateUTC 2024 0 16, dateUTC 2024 0 14) (by decide)

theorem gcLoop_iterations (r : Recurrence) (b today : Int) :
    ∀ fuel due iters,
      (gcLoop r b today fuel due iters).2 ≤ fuel + iters ∧
        ((gcLoop r b today fuel due iters).2 < fuel + iters ∨
          (gcLoop r b today fuel due iters).1 = none) := by
  intro fuel
  induction fuel with
  | zero =>
    intro due iters
    simp [gcLoop]
  | succ f ih =>
    intro due iters
    by_cases hff : isFastForwardType r = true
    · rw [gcLoop_ff_unfold hff]
      by_cases h1 : addDays due (-b) = today
      · rw [if_pos h1]
        simp only []
        omega
      · rw [if_neg h1]
        by_cases h2 : addDays due (-b) > today
        · rw [if_pos h2]
          simp only []
          omega
        · rw [if_neg h2]
          have := ih (fastForwardDailyLike due today b (effInterval r)).1 (iters + 1)
          constructor
          · omega
          · rcases this.2 with h | h
            · exact Or.inl (by omega)
            · exact Or.inr h
    · have hnff : isFastForwardType r = false := by simpa using hff
      rw [gcLoop_step_unfold hnff]
      by_cases h1 : addDays due (-b) = today
      · rw [if_pos h1]
        simp only []
        omega
      · rw [if_neg h1]
        by_cases h2 : addDays due (-b) > today
        · rw [if_pos h2]
          simp only []
          omega
        · rw [if_neg h2]
          rcases hnd : nextDueDate due r with _ | nd
          · have hg : iters ≤ f + 1 + iters ∧
                (iters < f + 1 + iters ∨ ((none : Option (Int × Int)) = none)) :=
              ⟨by omega, Or.inl (by omega)⟩
            exact hg
          · show ((if nd = due then ((none : Option (Int × Int)), iters)
                  else gcLoop r b today f nd (iters + 1)).2 ≤ f + 1 + iters) ∧
                (((if nd = due then ((none : Option (Int × Int)), iters)
                  else gcLoop r b today f nd (iters + 1)).2 < f + 1 + iters) ∨
                 ((if nd = due then ((none : Option (Int × Int)), iters)
                  else gcLoop r b today f nd (iters + 1)).1 = none))
            by_cases h4 : nd = due
            · have hred : (if nd = due then ((none : Option (Int × Int)), iters)
                  else gcLoop r b today f nd (iters + 1)) = (none, iters) := if_pos h4
              rw [hred]
              exact ⟨by omega, Or.inl (by omega)⟩
            · have hih := ih nd (iters + 1)
              have hred : (if nd = due then ((none : Option (Int × Int)), iters)
                  else gcLoop r b today f nd (iters + 1))
                  = gcLoop r b today f nd (iters + 1) := if_neg h4
              rw [hred]
              constructor
              · omega
              · rcases hih.2 with h | h
                · exact Or.inl (by omega)
                · exact Or.inr h

/-- C9: the evaluator terminates: the loop of `getCreationForDate` executes
at most 50 000 iterations, and a run that consumes the whole iteration
ceiling returns `none` (the source logs a warning and returns `null`). -/
theorem C9_iteration_ceiling (t : Template) (today : Int) :
    getCreationIterations t today ≤ 50000 ∧
      (getCreationIterations t today < 50000 ∨ getCreationForDate t today = none) := by
  obtain ⟨ha, hb⟩ := gcLoop_iterations t.recurrence (leadDays t) today 50000 (initialDueDate t) 0
  have h1 : getCreationIterations t today
      = (gcLoop t.recurrence (leadDays t) today 50000 (initialDueDate t) 0).2 := rfl
  have h2 : getCreationForDate t today
      = (gcLoop t.recurrence (leadDays t) today 50000 (initialDueDate t) 0).1 := rfl
  rw [h1, h2]
  constructor
  · omega
  · rcases hb with h | h
    · exact Or.inl (by omega)
    · exact Or.inr h

/-- C10: a template whose anchor occurrence already matches (anchor due date
minus the lead time equals `today`) returns that match, whatever the
recurrence is — the match check precedes any use of the recurrence
transition; in particular a template with a missing or unrecognized
recurrence type (for which `nextDueDate` is Terminal) still yields its
anchor match, and returns `none` on every other day. -/
theorem C10_anchor_match (t : Template) (today : Int) :
    (initialDueDate t - leadDays t = today →
      getCreationForDate t today = some (initialDueDate t, today)) ∧
    (t.recurrence = .unspecified →
      getCreationForDate t today =
        if t.firstDueDate - leadDays t = today then some (t.firstDueDate, today) else none) := by
  have h50 : (50000 : Nat) = 49999 + 1 := rfl
  constructor
  · intro h
    show (gcLoop t.recurrence (leadDays t) today 50000 (initialDueDate t) 0).1
        = some (initialDueDate t, today)
    rw [h50]
    by_cases hff : isFastForwardType t.recurrence = true
    · rw [gcLoop_ff_unfold hff]
      rw [if_pos (show addDays (initialDueDate t) (-leadDays t) = today from by
        simp only [addDays]; omega)]
      show some (initialDueDate t, addDays (initialDueDate t) (-leadDays t))
          = some (initialDueDate t, today)
      simp only [addDays, Option.some.injEq, Prod.mk.injEq]
      exact ⟨trivial, by omega⟩
    · have hnff : isFastForwardType t.recurrence = false := by simpa using hff
      rw [gcLoop_step_unfold hnff]
      rw [if_pos (show addDays (initialDueDate t) (-leadDays t) = today from by
        simp only [addDays]; omega)]
      show some (initialDueDate t, addDays (initialDueDate t) (-leadDays t))
          = some (initialDueDate t, today)
      simp only [addDays, Option.some.injEq, Prod.mk.injEq]
      exact ⟨trivial, by omega⟩
  · intro ht
    have hinit : initialDueDate t = t.firstDueDate := by
      simp [initialDueDate, ht, toDateOnly]
    have hnff : isFastForwardType t.recurrence = false := by rw [ht]; rfl
    by_cases hc : t.firstDueDate - leadDays t = today
    · rw [if_pos hc]
      show (gcLoop t.recurrence (leadDays t) today 50000 (initialDueDate t) 0).1
          = some (t.firstDueDate, today)
      rw [h50, gcLoop_step_unfold hnff, hinit]
      rw [if_pos (show addDays t.firstDueDate (-leadDays t) = today from by
        simp only [addDays]; omega)]
      show some (t.firstDueDate, addDays t.firstDueDate (-leadDays t))
          = some (t.firstDueDate, today)
      simp only [addDays, Option.some.injEq, Prod.mk.injEq]
      exact ⟨trivial, by omega⟩
    · rw [if_neg hc]
      show (gcLoop t.recurrence (leadDays t) today 50000 (initialDueDate t) 0).1 = none
      rw [h50, gcLoop_step_unfold hnff, hinit]
      rw [if_neg (show ¬addDays t.firstDueDate (-leadDays t) = today from by
        simp only [addDays]; omega)]
      by_cases hgt : addDays t.firstDueDate (-leadDays t) > today
      · rw [if_pos hgt]
      · rw [if_neg hgt]
        rw [ht]
        rfl

/-- Applying `C10_anchor_match` at a concrete input: a template with an
unspecified recurrence matches on its anchor day. -/
theorem C10_anchor_match_witness :
    getCreationForDate
        (Template.mk (dateUTC 2024 0 10) 2 .unspecified "" "" 0 .unassigned)
        (dateUTC 2024 0 8)
      = some (initialDueDate
          (Template.mk (dateUTC 2024 0 10) 2 .unspecified "" "" 0 .unassigned),
        dateUTC 2024 0 8) :=
  (C10_anchor_match (Template.mk (dateUTC 2024 0 10) 2 .unspecified "" "" 0 .unassigned)
    (dateUTC 2024 0 8)).1 (by decide)

/-- C4 (amended): during evaluation of a rule that is not fast-forwarded,
when `nextDueDate` returns Terminal (`none`), or returns a date equal to the
current due date, the evaluator stops at that point and returns `none`
(iteration counter unchanged).  A strictly earlier next date, by contrast,
does not stop the loop (see the counterexample): the loop continues from
the regressed date. -/
theorem C4_terminal_or_equal_stops (t : Template) (today due : Int) (fuel iters : Nat)
    (hnff : isFastForwardType t.recurrence = false)
    (hlt : addDays due (-leadDays t) < today)
    (hterm : nextDueDate due t.recurrence = none ∨ nextDueDate due t.recurrence = some due) :
    gcLoop t.recurrence (leadDays t) today (fuel + 1) due iters = (none, iters) := by
  rw [gcLoop_step_unfold hnff]
  rw [if_neg (show ¬addDays due (-leadDays t) = today from by omega),
      if_neg (show ¬addDays due (-leadDays t) > today from by omega)]
  rcases hterm with h | h
  · rw [h]
  · rw [h]
    show (if due = due then ((none : Option (Int × Int)), iters)
        else gcLoop t.recurrence (leadDays t) today fuel due (iters + 1)) = (none, iters)
    rw [if_pos rfl]

/-- Applying `C4_terminal_or_equal_stops` at a concrete input: a template
with an unrecognized recurrence type behind schedule stops immediately. -/
theorem C4_terminal_or_equal_stops_witness :
    gcLoop (Template.mk (dateUTC 2024 0 10) 0 .unspecified "" "" 0 .unassigned).recurrence
        (leadDays (Template.mk (dateUTC 2024 0 10) 0 .unspecified "" "" 0 .unassigned))
        (dateUTC 2024 0 20) (49999 + 1) (dateUTC 2024 0 10) 0
      = (none, 0) :=
  C4_terminal_or_equal_stops
    (Template.mk (dateUTC 2024 0 10) 0 .unspecified "" "" 0 .unassigned)
    (dateUTC 2024 0 20) (dateUTC 2024 0 10) 49999 0 rfl (by decide) (Or.inl rfl)

set_option maxRecDepth 40000 in
/-- C4 (counterexample to the claim as stated): for a monthly rule whose
stored `dayOfMonth` is negative, the very first `nextDueDate` step returns a
date strictly earlier than the current due date, yet the evaluator does not
stop at that point: it keeps iterating (the exit iteration counter is 1, not
0 — the run exits during the second pass, via the equal-date guard). -/
theorem C4_counterexample :
    nextDueDate (dateUTC 2023 0 31) (.monthly 1 (-29)) = some (dateUTC 2023 0 2) ∧
    dateUTC 2023 0 2 < dateUTC 2023 0 31 ∧
    addDays (dateUTC 2023 0 31)
        (-leadDays (Template.mk (dateUTC 2023 0 31) 0 (.monthly 1 (-29)) "" "" 0 .unassigned))
      < dateUTC 2023 5 1 ∧
    getCreationForDateFull
        (Template.mk (dateUTC 2023 0 31) 0 (.monthly 1 (-29)) "" "" 0 .unassigned)
        (dateUTC 2023 5 1)
      = (none, 1) := by
  refine ⟨by decide, by decide, by decide, by decide⟩

/-- The stored-parameter invariant of the data model for the parameters that
`nextDueDate` does not clamp: the monthly day-of-month and the yearly
month/day are nonnegative (a stored 0 — including an absent field — selects
the fallback component of the previous due date; the admin UI rejects
negative values).  Interval parameters need no assumption: the source clamps
them with `Math.max(1, ...)`. -/
def validParams : Recurrence → Prop
  | .monthly _ dayOfMonth => 0 ≤ dayOfMonth
  | .yearly month day => 0 ≤ month ∧ 0 ≤ day
  | _ => True

/-- C3: for every recurrence rule with stored parameters satisfying the data
model invariant and every prior due date, a non-Terminal `nextDueDate` is
strictly greater than the prior due date. -/
theorem C3_nextDueDate_monotone (r : Recurrence) (d d' : Int)
    (hv : validParams r) (h : nextDueDate d r = some d') : d < d' := by
  cases r with
  | unspecified => simp [nextDueDate] at h
  | daily k =>
    simp only [nextDueDate, toDateOnly, addDays, Option.some.injEq] at h
    have h1 : 1 ≤ max 1 (jsOr k 1) := le_max_left _ _
    omega
  | custom s k =>
    simp only [nextDueDate, toDateOnly, addDays, Option.some.injEq] at h
    have h1 : 1 ≤ max 1 (jsOr k 1) := le_max_left _ _
    omega
  | weekly w dw =>
    simp only [nextDueDate, toDateOnly, addDays, Option.some.injEq] at h
    have h1 : 1 ≤ max 1 (jsOr w 1) := le_max_left _ _
    omega
  | monthly im dom =>
    simp only [nextDueDate, toDateOnly, Option.some.injEq] at h
    have hK : 1 ≤ max 1 (jsOr im 1) := le_max_left _ _
    have hdom : 1 ≤ jsOr dom (getUTCDate d) := by
      unfold jsOr
      split
      · exact getUTCDate_pos d
      · unfold validParams at hv
        omega
    rw [dateUTC] at h
    have harg : 12 * getUTCFullYear d + (getUTCMonth d + max 1 (jsOr im 1))
        = midx d + max 1 (jsOr im 1) := by
      have := year_month_midx d
      omega
    rw [harg] at h
    have hmono : fom (midx d + 1) ≤ fom (midx d + max 1 (jsOr im 1)) := fom_mono (by omega)
    have hmidx := (fom_midx d).2
    omega
  | quarterly =>
    simp only [nextDueDate, toDateOnly, Option.some.injEq] at h
    have hm := getUTCMonth_range d
    have hym := year_month_midx d
    have hmidx := (fom_midx d).2
    by_cases c1 : getUTCMonth d < 3
    · rw [if_pos c1] at h
      norm_num at h
      rw [dateUTC] at h
      have hmono : fom (midx d + 1) ≤ fom (12 * getUTCFullYear d + 3) := fom_mono (by omega)
      omega
    · rw [if_neg c1] at h
      by_cases c2 : getUTCMonth d < 6
      · rw [if_pos c2] at h
        norm_num at h
        rw [dateUTC] at h
        have hmono : fom (midx d + 1) ≤ fom (12 * getUTCFullYear d + 6) := fom_mono (by omega)
        omega
      · rw [if_neg c2] at h
        by_cases c3 : getUTCMonth d < 9
        · rw [if_pos c3] at h
          norm_num at h
          rw [dateUTC] at h
          have hmono : fom (midx d + 1) ≤ fom (12 * getUTCFullYear d + 9) := fom_mono (by omega)
          omega
        · rw [if_neg c3] at h
          norm_num at h
          rw [dateUTC] at h
          have harg : 12 * (getUTCFullYear d + 1) + 0 = 12 * getUTCFullYear d + 12 := by ring
          rw [harg] at h
          have hmono : fom (midx d + 1) ≤ fom (12 * getUTCFullYear d + 12) :=
            fom_mono (by omega)
          omega
  | yearly mo dy =>
    simp only [nextDueDate, toDateOnly, Option.some.injEq] at h
    unfold validParams at hv
    have hm := getUTCMonth_range d
    have hym := year_month_midx d
    have hmidx := (fom_midx d).2
    have hday : 1 ≤ jsOr dy (getUTCDate d) := by
      unfold jsOr
      split
      · exact getUTCDate_pos d
      · omega
    rw [dateUTC] at h
    have hmono : fom (midx d + 1)
        ≤ fom (12 * (getUTCFullYear d + 1) + (jsOr mo (getUTCMonth d + 1) - 1)) := by
      apply fom_mono
      unfold jsOr
      split
      · omega
      · omega
    omega

set_option maxRecDepth 40000 in
/-- Applying `C3_nextDueDate_monotone` at a concrete input: a monthly rule
advances strictly. -/
theorem C3_nextDueDate_monotone_witness : dateUTC 2024 0 15 < dateUTC 2024 1 20 :=
  C3_nextDueDate_monotone (.monthly 1 20) (dateUTC 2024 0 15) (dateUTC 2024 1 20)
    (by norm_num [validParams]) (by decide)

/-- A date that is the first day of a quarter boundary: day 1 of January,
April, July or October (months 0-based). -/
def isQuarterStart (q : Int) : Prop :=
  getUTCDate q = 1 ∧
    (getUTCMonth q = 0 ∨ getUTCMonth q = 3 ∨ getUTCMonth q = 6 ∨ getUTCMonth q = 9)

theorem quarterly_result_min (d q : Int)
    (hNq : ∃ N : Int, q = fom N ∧ N % 3 = 0 ∧ midx d < N ∧ N ≤ midx d + 3) :
    isQuarterStart q ∧ midx d < midx q ∧
      ∀ q', isQuarterStart q' → midx d < midx q' → q ≤ q' := by
  obtain ⟨N, hq, h3, hgt, hle⟩ := hNq
  subst hq
  have hmf : midx (fom N) = N := midx_fom N
  refine ⟨⟨?_, ?_⟩, ?_, ?_⟩
  · unfold getUTCDate
    rw [hmf]
    ring
  · unfold getUTCMonth
    rw [hmf]
    omega
  · rw [hmf]
    exact hgt
  · intro q' hq' hlt
    obtain ⟨hd1, hmv⟩ := hq'
    have hq'fom : q' = fom (midx q') := by
      unfold getUTCDate at hd1
      omega
    have h3' : midx q' % 3 = 0 := by
      unfold getUTCMonth at hmv
      omega
    have hN' : N ≤ midx q' := by omega
    calc fom N ≤ fom (midx q') := fom_mono hN'
    _ = q' := hq'fom.symm

set_option maxRecDepth 40000 in
/-- C7: the quarterly rule (which stores no parameters) maps any previous
due date to the first day of the next quarter boundary (Jan 1 / Apr 1 /
Jul 1 / Oct 1) strictly after the month of the previous due date — it is a
quarter start, lies in a strictly later month, and is the least such quarter
start; and in particular (spec scenario C) a quarterly template with
`firstDueDate` 2024-02-15 and zero lead evaluated on 2024-04-01 matches with
`dueDate` 2024-04-01. -/
theorem C7_quarterly (d q : Int) (h : nextDueDate d .quarterly = some q) :
    (isQuarterStart q ∧ midx d < midx q ∧
      ∀ q', isQuarterStart q' → midx d < midx q' → q ≤ q') ∧
    getCreationForDate
        (Template.mk (dateUTC 2024 1 15) 0 .quarterly "" "" 0 .unassigned)
        (dateUTC 2024 3 1)
      = some (dateUTC 2024 3 1, dateUTC 2024 3 1) := by
  refine ⟨?_, by decide⟩
  simp only [nextDueDate, toDateOnly, Option.some.injEq] at h
  have hm := getUTCMonth_range d
  have hym := year_month_midx d
  apply quarterly_result_min
  by_cases c1 : getUTCMonth d < 3
  · rw [if_pos c1] at h
    norm_num at h
    refine ⟨12 * getUTCFullYear d + 3, ?_, by omega, by omega, by omega⟩
    rw [← h]
    unfold dateUTC
    ring
  · rw [if_neg c1] at h
    by_cases c2 : getUTCMonth d < 6
    · rw [if_pos c2] at h
      norm_num at h
      refine ⟨12 * getUTCFullYear d + 6, ?_, by omega, by omega, by omega⟩
      rw [← h]
      unfold dateUTC
      ring
    · rw [if_neg c2] at h
      by_cases c3 : getUTCMonth d < 9
      · rw [if_pos c3] at h
        norm_num at h
        refine ⟨12 * getUTCFullYear d + 9, ?_, by omega, by omega, by omega⟩
        rw [← h]
        unfold dateUTC
        ring
      · rw [if_neg c3] at h
        norm_num at h
        refine ⟨12 * getUTCFullYear d + 12, ?_, by omega, by omega, by omega⟩
        rw [← h]
        unfold dateUTC
        norm_num
        congr 1
        ring

set_option maxRecDepth 40000 in
/-- Applying `C7_quarterly` at the inputs of spec scenario C. -/
theorem C7_quarterly_witness :
    isQuarterStart (dateUTC 2024 3 1) ∧
      midx (dateUTC 2024 1 15) < midx (dateUTC 2024 3 1) ∧
      ∀ q', isQuarterStart q' → midx (dateUTC 2024 1 15) < midx q' → dateUTC 2024 3 1 ≤ q' :=
  (C7_quarterly (dateUTC 2024 1 15) (dateUTC 2024 3 1) (by decide)).1

theorem jsOr_nonpos_max {k : Int} (hk : k ≤ 0) : max 1 (jsOr k 1) = 1 := by
  unfold jsOr
  split <;> omega

theorem jsOr_one : jsOr 1 1 = 1 := rfl

theorem jsOr_self (x : Int) : jsOr x x = x := by
  unfold jsOr
  split <;> omega

set_option maxRecDepth 40000 in
/-- C8 (counterexample to the claim as stated): a stored monthly
`dayOfMonth` of 0 is not coerced to 1 — it falls back to the day-of-month of
the previous due date: from 2024-01-15, `dayOfMonth = 0` yields 2024-02-15
while `dayOfMonth = 1` yields 2024-02-01. -/
theorem C8_counterexample :
    nextDueDate (dateUTC 2024 0 15) (.monthly 1 0)
      ≠ nextDueDate (dateUTC 2024 0 15) (.monthly 1 1) := by
  decide

/-- C8 (amended): the interval parameters (`intervalDays`, `intervalWeeks`,
`intervalMonths`) are clamped with `Math.max(1, ...)`, so any stored value
`≤ 0` behaves exactly like 1; the monthly `dayOfMonth` and the yearly
`month`/`day`, by contrast, are not coerced to 1: a stored 0 falls back to
the corresponding component of the previous due date (and negative values
are used as-is by date normalization). -/
theorem C8_interval_coercion (d k dw dom im mo dy : Int) (s : Option Int) (hk : k ≤ 0) :
    nextDueDate d (.daily k) = nextDueDate d (.daily 1) ∧
    nextDueDate d (.weekly k dw) = nextDueDate d (.weekly 1 dw) ∧
    nextDueDate d (.monthly k dom) = nextDueDate d (.monthly 1 dom) ∧
    nextDueDate d (.custom s k) = nextDueDate d (.custom s 1) ∧
    nextDueDate d (.monthly im 0) = nextDueDate d (.monthly im (getUTCDate d)) ∧
    nextDueDate d (.yearly 0 dy) = nextDueDate d (.yearly (getUTCMonth d + 1) dy) ∧
    nextDueDate d (.yearly mo 0) = nextDueDate d (.yearly mo (getUTCDate d)) := by
  refine ⟨?_, ?_, ?_, ?_, ?_, ?_, ?_⟩
  · simp only [nextDueDate, jsOr_nonpos_max hk, jsOr_one, max_self]
  · simp only [nextDueDate, jsOr_nonpos_max hk, jsOr_one, max_self]
  · simp only [nextDueDate, jsOr_nonpos_max hk, jsOr_one, max_self]
  · simp only [nextDueDate, jsOr_nonpos_max hk, jsOr_one, max_self]
  · simp only [nextDueDate, toDateOnly]
    rw [show jsOr 0 (getUTCDate d) = getUTCDate d from rfl, jsOr_self]
  · simp only [nextDueDate, toDateOnly]
    rw [show jsOr 0 (getUTCMonth d + 1) = getUTCMonth d + 1 from rfl, jsOr_self]
  · simp only [nextDueDate, toDateOnly]
    rw [show jsOr 0 (getUTCDate d) = getUTCDate d from rfl, jsOr_self]

set_option maxRecDepth 40000 in
/-- Applying `C8_interval_coercion` at a concrete input (`intervalDays`
= -5 behaves as 1). -/
theorem C8_interval_coercion_witness :
    nextDueDate (dateUTC 2024 0 15) (.daily (-5)) = nextDueDate (dateUTC 2024 0 15) (.daily 1) :=
  (C8_interval_coercion (dateUTC 2024 0 15) (-5) 0 0 1 1 1 none (by norm_num)).1

/-!
Embedding of the occurrence materializer `createTaskFromTemplate` of the
full cron-script variant (lines 111-243).  The osTicket store is an explicit
state value; each `conn.query` is a numbered step, and a failure oracle
`failAt` injects a rejection at one step, standing for an arbitrary write
failure.  The transaction is modelled by threading a working copy of the
store through the steps: only a completed run (through COMMIT, step 14)
publishes the working copy; any raised error rolls back to the snapshot
taken at BEGIN.  The connection lifecycle (acquire from the pool, release in
the `finally` block) is the third result component: the net number of
connections still held at exit, on every path. -/

structure StaffRow where
  staffId : Int
  firstname : String
  lastname : String
  username : String
  deriving DecidableEq, Repr

structure TaskRow where
  id : Int
  number : Int
  deptId : Int
  staffId : Int
  teamId : Int
  flags : Int
  duedate : Option Int
  created : Int
  updated : Int
  deriving DecidableEq, Repr

structure FormEntryRow where
  id : Int
  formId : Int
  objectId : Int
  deriving DecidableEq, Repr

structure FormValueRow where
  fieldId : Int
  value : String
  entryId : Int
  deriving DecidableEq, Repr

structure CdataRow where
  taskId : Int
  title : String
  deriving DecidableEq, Repr

structure ThreadRow where
  id : Int
  objectId : Int
  deriving DecidableEq, Repr

structure ThreadEntryRow where
  id : Int
  threadId : Int
  staffId : Int
  poster : String
  title : String
  body : String
  deriving DecidableEq, Repr

structure SearchRow where
  objectId : Int
  content : String
  title : String
  deriving DecidableEq, Repr

structure ThreadEventRow where
  threadId : Int
  staffId : Int
  teamId : Int
  username : Option String
  data : String
  deriving DecidableEq, Repr

structure DBState where
  hasError : Bool
  sequence2 : Option Int
  staffTable : List StaffRow
  nextTaskId : Int
  nextFormEntryId : Int
  nextThreadId : Int
  nextThreadEntryId : Int
  tasks : List TaskRow
  formEntries : List FormEntryRow
  formValues : List FormValueRow
  cdata : List CdataRow
  threads : List ThreadRow
  threadEntries : List ThreadEntryRow
  searchRows : List SearchRow
  threadEvents : List ThreadEventRow
  deriving DecidableEq, Repr

structure CreateResult where
  taskId : Int
  taskNumber : Int
  deriving DecidableEq, Repr

/-- Source `buildPoster(staff)`: the resolved author identity for the opening
thread entry, falling back to a system identity when unassigned. -/
def buildPoster (staff : Option StaffRow) : String :=
  match staff with
  | none => "System"
  | some s =>
      let name :=
        if (s.firstname ++ " " ++ s.lastname).trim = "" then
          if s.username = "" then "Staff" else s.username
        else (s.firstname ++ " " ++ s.lastname).trim
      if s.username = "" then name else name ++ " [" ++ s.username ++ "]"

/-- One `conn.query(...)` call: step `idx` fails exactly when the failure
oracle names it. -/
def runQuery (failAt : Option Nat) (idx : Nat) {α : Type} (a : α) : Except String α :=
  if failAt = some idx then Except.error "query failed" else Except.ok a

/-- The catch/finally tail of `createTaskFromTemplate`: a completed attempt
commits its working store; an error rolls back to the BEGIN snapshot and
re-throws.  The connection acquired at entry is released in `finally` on
both paths (net held connections: 1 - 1 = 0). -/
def finishTransaction (db : DBState) (attempt : Except String (CreateResult × DBState)) :
    Except String CreateResult × DBState × Int :=
  match attempt with
  | Except.ok (res, w) => (Except.ok res, w, 1 - 1)
  | Except.error e => (Except.error e, db, 1 - 1)

/-- Source `createTaskFromTemplate` (template, dueDate, creationDate) of the full
cron-script variant.  Steps: 0 fetchStaff SELECT (skipped when no staff
assignee), 1 sequence SELECT FOR UPDATE, 2 sequence UPDATE, 3 ost_task
INSERT, 4 ost_form_entry INSERT, 5/6 title and description
ost_form_entry_values INSERTs, 7 ost_task__cdata upsert, 8 ost_thread
INSERT, 9 ost_thread_entry INSERT, 10 ost__search REPLACE, 11/12 creation
and assignment ost_thread_event INSERTs, 13 conditional staff UPDATE,
14 COMMIT. -/
def createTaskFromTemplate (failAt : Option Nat) (template : Template)
    (dueDate creationDate : Option Int) (now : Int) (db : DBState) :
    Except String CreateResult × DBState × Int :=
  if db.hasError then (Except.error "Database unavailable", db, 0)
  else
    let staffId : Int := match template.assignee with | .staff i => i | _ => 0
    let teamId : Int := match template.assignee with | .team i => i | _ => 0
    let createdAt := match creationDate with | some c => c | none => now
    let dueAt := dueDate
    let attempt : Except String (CreateResult × DBState) := do
      let staff ← if staffId = 0 then pure none
        else runQuery failAt 0 (db.staffTable.find? (fun s => s.staffId = staffId))
      let staffPoster := buildPoster staff
      let staffUsername := Option.map StaffRow.username staff
      let seqRow ← runQuery failAt 1 db.sequence2
      let taskNumber ← match seqRow with
        | none => Except.error "Task sequence (id=2) is missing."
        | some nxt => pure nxt
      let w ← runQuery failAt 2 { db with sequence2 := some (taskNumber + 1) }
      let taskId := w.nextTaskId
      let w ← runQuery failAt 3 { w with
        nextTaskId := w.nextTaskId + 1,
        tasks := w.tasks ++ [TaskRow.mk taskId taskNumber template.departmentId
          staffId teamId 1 dueAt createdAt createdAt] }
      let formEntryId := w.nextFormEntryId
      let w ← runQuery failAt 4 { w with
        nextFormEntryId := w.nextFormEntryId + 1,
        formEntries := w.formEntries ++ [FormEntryRow.mk formEntryId 5 taskId] }
      let w ← runQuery failAt 5 { w with
        formValues := w.formValues ++ [FormValueRow.mk 32 template.title formEntryId] }
      let w ← runQuery failAt 6 { w with
        formValues := w.formValues ++ [FormValueRow.mk 33 template.description formEntryId] }
      let w ← runQuery failAt 7 { w with
        cdata := (w.cdata.filter (fun (r : CdataRow) => r.taskId ≠ taskId))
          ++ [CdataRow.mk taskId template.title] }
      let threadId := w.nextThreadId
      let w ← runQuery failAt 8 { w with
        nextThreadId := w.nextThreadId + 1,
        threads := w.threads ++ [ThreadRow.mk threadId taskId] }
      let threadEntryId := w.nextThreadEntryId
      let w ← runQuery failAt 9 { w with
        nextThreadEntryId := w.nextThreadEntryId + 1,
        threadEntries := w.threadEntries ++ [ThreadEntryRow.mk threadEntryId threadId
          staffId staffPoster template.title template.description] }
      let w ← runQuery failAt 10 { w with
        searchRows := (w.searchRows.filter (fun (r : SearchRow) => r.objectId ≠ threadEntryId))
          ++ [SearchRow.mk threadEntryId template.description template.title] }
      let w ← runQuery failAt 11 { w with
        threadEvents := w.threadEvents ++ [ThreadEventRow.mk threadId staffId teamId
          staffUsername "task.created"] }
      let w ← runQuery failAt 12 { w with
        threadEvents := w.threadEvents ++ [ThreadEventRow.mk threadId staffId teamId
          staffUsername "task.assigned"] }
      let w ← if staffId = 0 then pure w
        else runQuery failAt 13 { w with
          tasks := w.tasks.map (fun r => if r.id = taskId then { r with staffId := staffId } else r) }
      let w ← runQuery failAt 14 w
      pure (CreateResult.mk taskId taskNumber, w)
    finishTransaction db attempt

theorem finishTransaction_spec (db : DBState) (a : Except String (CreateResult × DBState)) :
    (finishTransaction db a).2.2 = 0 ∧
      ∀ e, (finishTransaction db a).1 = Except.error e → (finishTransaction db a).2.1 = db := by
  rcases a with e | ⟨res, w⟩ <;> simp [finishTransaction]

/-- C5: every invocation of the materializer releases its store connection
on every exit path (the net held-connection count of the result is 0 — also
on the fail-fast path that never acquires one), and whenever the invocation
ends in an error — a write step failed after the transaction began, the
sequence row was missing, or the commit itself failed — the visible store is
exactly the snapshot taken at BEGIN: every write of the invocation is rolled
back, and the error value is the function's result (it propagates to the
caller). -/
theorem C5_rollback_and_release (failAt : Option Nat) (t : Template)
    (dueDate creationDate : Option Int) (now : Int) (db : DBState) :
    (createTaskFromTemplate failAt t dueDate creationDate now db).2.2 = 0 ∧
      ∀ e, (createTaskFromTemplate failAt t dueDate creationDate now db).1 = Except.error e →
        (createTaskFromTemplate failAt t dueDate creationDate now db).2.1 = db := by
  unfold createTaskFromTemplate
  by_cases hdb : db.hasError
  · rw [if_pos hdb]
    exact ⟨rfl, fun e _ => rfl⟩
  · rw [if_neg hdb]
    exact finishTransaction_spec db _

def dbSample : DBState := ⟨false, some 5, [], 100, 200, 300, 400, [], [], [], [], [], [], [], []⟩

def tMat : Template := ⟨0, 0, .daily 1, "T", "D", 7, .staff 3⟩

deriving instance DecidableEq for Except

/-- Applying `C5_rollback_and_release` at a concrete input: a run that
fails at the thread-creation step (step 8) leaves the store exactly as it
was (spec scenario E). -/
theorem C5_rollback_and_release_witness :
    (createTaskFromTemplate (some 8) tMat (some 10) (some 8) 99 dbSample).2.1 = dbSample :=
  (C5_rollback_and_release (some 8) tMat (some 10) (some 8) 99 dbSample).2
    "query failed" (by decide)

theorem createTask_success (t : Template) (dueDate creationDate : Option Int) (now : Int)
    (db : DBState) (n : Int) (hok : db.hasError = false) (hseq : db.sequence2 = some n) :
    (createTaskFromTemplate none t dueDate creationDate now db).1
        = Except.ok (CreateResult.mk db.nextTaskId n) ∧
    ((createTaskFromTemplate none t dueDate creationDate now db).2.1).hasError = false ∧
    ((createTaskFromTemplate none t dueDate creationDate now db).2.1).sequence2 = some (n + 1) ∧
    ((createTaskFromTemplate none t dueDate creationDate now db).2.1).nextTaskId
        = db.nextTaskId + 1 := by
  rcases hasg : t.assignee with _ | i | i
  · rcases creationDate with _ | c <;>
      simp [createTaskFromTemplate, runQuery, finishTransaction, hok, hseq, hasg,
        Bind.bind, Except.bind, pure, Except.pure]
  · by_cases hi : i = 0 <;>
      rcases creationDate with _ | c <;>
        simp [createTaskFromTemplate, runQuery, finishTransaction, hok, hseq, hasg, hi,
          Bind.bind, Except.bind, pure, Except.pure]
  · rcases creationDate with _ | c <;>
      simp [createTaskFromTemplate, runQuery, finishTransaction, hok, hseq, hasg,
        Bind.bind, Except.bind, pure, Except.pure]

/-- C6: a successful materialization returns the human-facing task number
read from the exclusively-locked sequence counter (here: the counter value
threaded through the sequential store state) and leaves the counter
advanced by exactly 1; invoking it twice for the same (template, dueDate,
creationDate) occurrence yields two distinct work-item identifiers and two
strictly increasing sequence numbers — the operation is not idempotent. -/
theorem C6_sequence_nonidempotent (t : Template) (dueDate creationDate : Option Int)
    (now : Int) (db : DBState) (n : Int)
    (hok : db.hasError = false) (hseq : db.sequence2 = some n) :
    (createTaskFromTemplate none t dueDate creationDate now db).1
        = Except.ok (CreateResult.mk db.nextTaskId n) ∧
    ((createTaskFromTemplate none t dueDate creationDate now db).2.1).sequence2 = some (n + 1) ∧
    (createTaskFromTemplate none t dueDate creationDate now
        ((createTaskFromTemplate none t dueDate creationDate now db).2.1)).1
      = Except.ok (CreateResult.mk (db.nextTaskId + 1) (n + 1)) ∧
    db.nextTaskId ≠ db.nextTaskId + 1 ∧ n < n + 1 := by
  obtain ⟨h1, h2, h3, h4⟩ := createTask_success t dueDate creationDate now db n hok hseq
  obtain ⟨h1', h2', h3', h4'⟩ := createTask_success t dueDate creationDate now
    ((createTaskFromTemplate none t dueDate creationDate now db).2.1) (n + 1) h2 h3
  refine ⟨h1, h3, ?_, by omega, by omega⟩
  rw [h1', h4]

/-- Applying `C6_sequence_nonidempotent` at a concrete input. -/
theorem C6_sequence_nonidempotent_witness :
    (createTaskFromTemplate none tMat (some 10) (some 8) 99 dbSample).1
        = Except.ok (CreateResult.mk dbSample.nextTaskId 5) ∧
    ((createTaskFromTemplate none tMat (some 10) (some 8) 99 dbSample).2.1).sequence2
        = some (5 + 1) ∧
    (createTaskFromTemplate none tMat (some 10) (some 8) 99
        ((createTaskFromTemplate none tMat (some 10) (some 8) 99 dbSample).2.1)).1
      = Except.ok (CreateResult.mk (dbSample.nextTaskId + 1) (5 + 1)) ∧
    dbSample.nextTaskId ≠ dbSample.nextTaskId + 1 ∧ (5 : Int) < 5 + 1 :=
  C6_sequence_nonidempotent tMat (some 10) (some 8) 99 dbSample 5 rfl rfl
